import Mathlib

/-!
# Verification of the expense-tracker repository

A shallow embedding, in Lean 4, of the core of the expense-tracker
repository (`ana.py`, `bot.py`, `expense_tracker.py`), together with
theorems settling the specification's claims about it.

Conventions of the embedding:
* Python `float` amounts are modelled as exact rationals (`ℚ`); the spec's
  "floating-point tolerance aside" clauses become exact equalities.
* Fallible Python code (a `raise` caught by a caller) is modelled with
  `Option`/`Except`.
* Calls to external services (the Supabase store, the Telegram transport,
  matplotlib) are modelled by an explicit environment (`Env`) and by logs
  of the outbound effects (`sent`, `acks`, `inserted`) carried in the bot
  state.
-/

/-! ## Python string primitives

The handlers use `str.split`, `str.strip`, `float(...)` and `int(...)`.
These are modelled character-by-character on ASCII whitespace and plain
decimal literals (the forms the conversational grammar uses).  -/

/-- ASCII whitespace, as recognised by Python's `str.split()`/`str.strip()`. -/
def pyIsSpace (c : Char) : Bool :=
  c = ' ' || c = '\t' || c = '\n' || c = '\r' || c = '\x0b' || c = '\x0c'

/-- Models Python `str.strip()`: drop leading and trailing whitespace. -/
def pyStrip (s : String) : String :=
  String.mk (((s.data.dropWhile pyIsSpace).reverse.dropWhile pyIsSpace).reverse)

/-- One step of whitespace splitting, consuming characters from the right:
a whitespace character opens a new (possibly empty) group, any other
character is prepended to the current group. -/
def splitWSStep (c : Char) (acc : List (List Char)) : List (List Char) :=
  if pyIsSpace c then [] :: acc
  else
    match acc with
    | [] => [[c]]
    | t :: ts => (c :: t) :: ts

/-- Models Python `text.split()` (no separator argument): split on runs of
whitespace, discarding empty tokens. Used by `handle_month_input`. -/
def pySplit (s : String) : List String :=
  ((s.data.foldr splitWSStep []).filter (fun t => !t.isEmpty)).map String.mk

/-- Models Python `text.split(maxsplit=2)`: at most two splits, the third
element (when present) is the untouched remainder after the second token
(leading whitespace consumed, the rest verbatim). Used by
`handle_expense_input`. -/
def pySplitMax2 (s : String) : List String :=
  let cs := s.data.dropWhile pyIsSpace
  if cs.isEmpty then []
  else
    let t1 := cs.takeWhile (fun c => !pyIsSpace c)
    let r1 := (cs.dropWhile (fun c => !pyIsSpace c)).dropWhile pyIsSpace
    if r1.isEmpty then [String.mk t1]
    else
      let t2 := r1.takeWhile (fun c => !pyIsSpace c)
      let r2 := (r1.dropWhile (fun c => !pyIsSpace c)).dropWhile pyIsSpace
      if r2.isEmpty then [String.mk t1, String.mk t2]
      else [String.mk t1, String.mk t2, String.mk r2]

/-- Accumulate a decimal digit string left-to-right; `none` on a non-digit. -/
def parseDigitsAux (acc : Nat) : List Char → Option Nat
  | [] => some acc
  | c :: cs => if c.isDigit then parseDigitsAux (acc * 10 + (c.toNat - 48)) cs else none

/-- Models Python `float(token)` on the plain decimal literals the
conversational grammar uses: optional sign, digits, optional fractional
part (`250`, `-2.5`, `.5`, `2.`); anything else — in particular a token
with no digit at all — fails (`ValueError`). Exotic accepted forms of the
Python builtin (exponents, `inf`, `nan`, underscores) are outside the
grammar and not modelled. -/
def parseFloat (s : String) : Option ℚ :=
  let cs := s.data
  let signAndRest : ℚ × List Char :=
    match cs with
    | '+' :: rest => (1, rest)
    | '-' :: rest => (-1, rest)
    | _ => (1, cs)
  let sign := signAndRest.1
  let body := signAndRest.2
  let intPart := body.takeWhile Char.isDigit
  let rest := body.dropWhile Char.isDigit
  match rest with
  | [] =>
    if intPart.isEmpty then none
    else (parseDigitsAux 0 intPart).map (fun v => sign * (v : ℚ))
  | '.' :: fracPart =>
    if !fracPart.all Char.isDigit then none
    else if intPart.isEmpty && fracPart.isEmpty then none
    else
      match parseDigitsAux 0 intPart, parseDigitsAux 0 fracPart with
      | some iv, some fv =>
          some (sign * ((iv : ℚ) + (fv : ℚ) / ((10 : ℚ) ^ fracPart.length)))
      | _, _ => none
  | _ => none

/-- Models Python `int(token)`: optional sign followed by at least one
digit; anything else fails (`ValueError`). -/
def parseInt (s : String) : Option Int :=
  let signAndRest : Int × List Char :=
    match s.data with
    | '+' :: rest => (1, rest)
    | '-' :: rest => (-1, rest)
    | _ => (1, s.data)
  let sign := signAndRest.1
  let ds := signAndRest.2
  if ds.isEmpty then none
  else if ds.all Char.isDigit then (parseDigitsAux 0 ds).map (fun v => sign * (v : Int))
  else none

/-! ## Data model (`ana.py`)

A raw record is an untrusted mapping fetched from the store. The pipeline
reads three of its fields. Each field of the model is doubly optional:
the outer `Option` is field presence (`'amount' in item`), the inner
`Option` is the outcome of the library parse applied to the raw value
(`float(item['amount'])`, `datetime.fromisoformat(item['time'].split('T')[0])`)
— the parses themselves are Python/C library code external to the
repository, so only their success/failure and resulting value are
modelled. The `category` field is `str(...)`-converted, which always
succeeds, so it is a single `Option String`. The `note` field is never
read by the validation/aggregation pipeline and is omitted. -/

/-- The calendar date produced by `datetime.fromisoformat` (only the date
portion before `'T'` is kept by `process_data`). -/
structure PyDate where
  year : Nat
  month : Nat
  day : Nat
deriving DecidableEq, Repr

structure RawRecord where
  amount : Option (Option ℚ)
  time : Option (Option PyDate)
  category : Option String
deriving DecidableEq, Repr

/-- A validated expense as built inside the loop of `process_data`. -/
structure Expense where
  date : PyDate
  amount : ℚ
  category : String
deriving DecidableEq, Repr

/-- The key `date.strftime("%Y-%m")` of `monthly_totals`, modelled as the
(year, month) pair (the zero-padded string form is injective in both
directions on the dates `datetime` produces). -/
def ymKey (d : PyDate) : Nat × Nat := (d.year, d.month)

/-- The fallible body of the per-record `try` block of `process_data`
(ana.py lines 44-55): require the three fields present (else `KeyError`),
parse the amount (else `ValueError`), parse the date portion of the
timestamp (else a parse error), trim the category and substitute
"Uncategorized" when the trimmed result is empty. All of this precedes
every mutation of the accumulators, so a failing record contributes
nothing. A negative amount is only warned about, not rejected. -/
def validateRecord (item : RawRecord) : Option Expense :=
  match item.amount, item.time, item.category with
  | some amountField, some timeField, some categoryField =>
    match amountField with
    | none => none
    | some amount =>
      match timeField with
      | none => none
      | some date =>
        let c := pyStrip categoryField
        some { date := date
               amount := amount
               category := if c = "" then "Uncategorized" else c }
  | _, _, _ => none

/-- `defaultdict(float)` update `d[k] += v`: add into the first (unique)
occurrence of the key, keeping its insertion position, or append a fresh
bucket at the end. -/
def addTo {κ : Type} [DecidableEq κ] (l : List (κ × ℚ)) (k : κ) (v : ℚ) :
    List (κ × ℚ) :=
  match l with
  | [] => [(k, v)]
  | (k', v') :: rest =>
    if k' = k then (k', v' + v) :: rest else (k', v') :: addTo rest k v

/-- The accumulators of `process_data`'s loop. `skipped` counts the
"Skipping invalid data point" log lines, one per rejected record (a ghost
counter: the Python prints rather than counts). -/
structure Accum where
  dates : List PyDate
  amounts : List ℚ
  categories : List String
  category_totals : List (String × ℚ)
  monthly_totals : List ((Nat × Nat) × ℚ)
  skipped : Nat
deriving DecidableEq, Repr

def initAccum : Accum :=
  { dates := [], amounts := [], categories := [],
    category_totals := [], monthly_totals := [], skipped := 0 }

/-- One iteration of the `for item in all_data` loop of `process_data`. -/
def processItem (acc : Accum) (item : RawRecord) : Accum :=
  match validateRecord item with
  | none => { acc with skipped := acc.skipped + 1 }
  | some e =>
    { dates := acc.dates ++ [e.date]
      amounts := acc.amounts ++ [e.amount]
      categories := acc.categories ++ [e.category]
      category_totals := addTo acc.category_totals e.category e.amount
      monthly_totals := addTo acc.monthly_totals (ymKey e.date) e.amount
      skipped := acc.skipped }

/-- The two distinct `ValueError`s `process_data` can raise:
`invalidOrEmpty` is `"Invalid or empty data received"` (line 36, empty or
non-list input), `noValidData` is `"No valid data points found after
processing"` (line 73, nothing validated). -/
inductive PDError
  | invalidOrEmpty
  | noValidData
deriving DecidableEq, Repr

/-- `process_data` (ana.py lines 33-75). The Python returns the 5-tuple
`(dates, amounts, categories, category_totals, monthly_totals)`; the
embedding returns the whole accumulator (its `skipped` field is the ghost
count of skip-log lines). -/
def process_data (all_data : List RawRecord) : Except PDError Accum :=
  if all_data.isEmpty then .error .invalidOrEmpty
  else if (all_data.foldl processItem initAccum).dates.isEmpty then .error .noValidData
  else .ok (all_data.foldl processItem initAccum)

/-- Sum of the values of a totals mapping. -/
def sumVals {κ : Type} (l : List (κ × ℚ)) : ℚ := (l.map Prod.snd).sum

deriving instance DecidableEq for Except

/-! ## Loop invariants of `process_data` -/

theorem sumVals_addTo {κ : Type} [DecidableEq κ] (l : List (κ × ℚ)) (k : κ) (v : ℚ) :
    sumVals (addTo l k v) = sumVals l + v := by
  induction l with
  | nil => simp [addTo, sumVals]
  | cons p rest ih =>
    obtain ⟨k', v'⟩ := p
    by_cases h : k' = k
    · simp only [addTo, if_pos h, sumVals, List.map_cons, List.sum_cons]
      ring
    · simp only [addTo, if_neg h, sumVals, List.map_cons, List.sum_cons] at *
      rw [ih]
      ring

/-- The value sums of both totals mappings track the running amount sum
through the loop of `process_data`. -/
theorem processLoop_sums (data : List RawRecord) (acc : Accum)
    (h1 : sumVals acc.category_totals = acc.amounts.sum)
    (h2 : sumVals acc.monthly_totals = acc.amounts.sum) :
    sumVals (data.foldl processItem acc).category_totals
        = (data.foldl processItem acc).amounts.sum ∧
    sumVals (data.foldl processItem acc).monthly_totals
        = (data.foldl processItem acc).amounts.sum := by
  induction data generalizing acc with
  | nil => exact ⟨h1, h2⟩
  | cons item rest ih =>
    simp only [List.foldl_cons]
    apply ih
    · cases hv : validateRecord item with
      | none => simpa [processItem, hv] using h1
      | some e =>
        simp [processItem, hv, sumVals_addTo, h1, List.sum_append]
    · cases hv : validateRecord item with
      | none => simpa [processItem, hv] using h2
      | some e =>
        simp [processItem, hv, sumVals_addTo, h2, List.sum_append]

/-- The dates series is the validated expenses' dates in input order. -/
theorem processLoop_dates (data : List RawRecord) (acc : Accum) :
    (data.foldl processItem acc).dates
        = acc.dates ++ (data.filterMap validateRecord).map Expense.date := by
  induction data generalizing acc with
  | nil => simp
  | cons item rest ih =>
    cases hv : validateRecord item <;>
      simp [List.foldl_cons, List.filterMap_cons, hv, ih, processItem]

/-- The amounts series is the validated expenses' amounts in input order. -/
theorem processLoop_amounts (data : List RawRecord) (acc : Accum) :
    (data.foldl processItem acc).amounts
        = acc.amounts ++ (data.filterMap validateRecord).map Expense.amount := by
  induction data generalizing acc with
  | nil => simp
  | cons item rest ih =>
    cases hv : validateRecord item <;>
      simp [List.foldl_cons, List.filterMap_cons, hv, ih, processItem]

/-- The categories series is the validated expenses' categories in input
order. -/
theorem processLoop_categories (data : List RawRecord) (acc : Accum) :
    (data.foldl processItem acc).categories
        = acc.categories ++ (data.filterMap validateRecord).map Expense.category := by
  induction data generalizing acc with
  | nil => simp
  | cons item rest ih =>
    cases hv : validateRecord item <;>
      simp [List.foldl_cons, List.filterMap_cons, hv, ih, processItem]

/-- The skip counter counts exactly the rejected records. -/
theorem processLoop_skipped (data : List RawRecord) (acc : Accum) :
    (data.foldl processItem acc).skipped
        = acc.skipped + data.countP (fun i => (validateRecord i).isNone) := by
  induction data generalizing acc with
  | nil => simp
  | cons item rest ih =>
    cases hv : validateRecord item
    · simp [List.foldl_cons, List.countP_cons, hv, ih, processItem]
      omega
    · simp [List.foldl_cons, List.countP_cons, hv, ih, processItem]

/-- Accepted plus rejected records account for the whole batch. -/
theorem filterMap_length_add_countP (data : List RawRecord) :
    (data.filterMap validateRecord).length
        + data.countP (fun i => (validateRecord i).isNone) = data.length := by
  induction data with
  | nil => simp
  | cons item rest ih =>
    cases hv : validateRecord item <;>
      simp [List.filterMap_cons, List.countP_cons, hv] <;> omega

/-- Every expense accepted by the validator has a non-empty category:
either the trimmed raw category, known non-empty, or the sentinel. -/
theorem validateRecord_category_ne_empty (item : RawRecord) (e : Expense)
    (h : validateRecord item = some e) : e.category ≠ "" := by
  unfold validateRecord at h
  rcases item with ⟨amount, time, category⟩
  rcases amount with _ | amountField <;> rcases time with _ | timeField <;>
    rcases category with _ | categoryField <;> simp at h
  rcases amountField with _ | a <;> simp at h
  rcases timeField with _ | d <;> simp at h
  rw [← h]
  by_cases hc : pyStrip categoryField = "" <;> simp [hc]

/-! ## Sample raw records used by concrete witnesses -/

/-- A well-formed record: `{time: "2025-10-01T...", category: "Food", amount: 250}`. -/
def recFood : RawRecord :=
  { amount := some (some 250), time := some (some ⟨2025, 10, 1⟩), category := some "Food" }

/-- A record whose category is blank after trimming: `{time: "2025-10-02", category: "  ", amount: 50}`. -/
def recBlankCat : RawRecord :=
  { amount := some (some 50), time := some (some ⟨2025, 10, 2⟩), category := some "  " }

/-- A record with the `amount` field absent (fails validation, `KeyError`). -/
def recMissingAmount : RawRecord :=
  { amount := none, time := some (some ⟨2025, 10, 3⟩), category := some "X" }

/-- The result of `process_data [recFood, recBlankCat]`. -/
def resFoodBlank : Accum :=
  { dates := [⟨2025, 10, 1⟩, ⟨2025, 10, 2⟩], amounts := [250, 50],
    categories := ["Food", "Uncategorized"],
    category_totals := [("Food", 250), ("Uncategorized", 50)],
    monthly_totals := [((2025, 10), 300)], skipped := 0 }

/-! ## Claims C1, C2, C3 -/

/-- **C1**: for every batch on which `process_data` succeeds, the sum of
the values of `category_totals`, the sum of the values of
`monthly_totals` and the sum of the validated amounts series all agree
(amounts are modelled as exact rationals, so the spec's floating-point
tolerance becomes exact equality). -/
theorem c1_category_monthly_amount_sums_agree (data : List RawRecord) (r : Accum)
    (h : process_data data = Except.ok r) :
    sumVals r.category_totals = r.amounts.sum ∧
    sumVals r.monthly_totals = r.amounts.sum := by
  unfold process_data at h
  split at h
  · exact absurd h (by simp)
  · split at h
    · exact absurd h (by simp)
    · have hr : data.foldl processItem initAccum = r := by
        injection h
      rw [← hr]
      exact processLoop_sums data initAccum (by simp [initAccum, sumVals])
        (by simp [initAccum, sumVals])

set_option maxRecDepth 8000 in
theorem c1_witness :
    process_data [recFood, recBlankCat] = Except.ok resFoodBlank ∧
    (sumVals resFoodBlank.category_totals = resFoodBlank.amounts.sum ∧
     sumVals resFoodBlank.monthly_totals = resFoodBlank.amounts.sum) :=
  ⟨by with_unfolding_all decide,
   c1_category_monthly_amount_sums_agree [recFood, recBlankCat] resFoodBlank
     (by with_unfolding_all decide)⟩

/-- **C2** (amended): for every *non-empty* batch, if zero records pass
validation then `process_data` fails with the `NoValidData` error
(`"No valid data points found after processing"`), returning no
aggregates; and if at least one record validates it does not fail. The
non-emptiness qualifier is forced: the empty batch also has zero
validating records, but fails earlier with the distinct
`"Invalid or empty data received"` error (see the counterexample). -/
theorem c2_no_valid_data_error (data : List RawRecord) (hne : data ≠ []) :
    (data.all (fun i => (validateRecord i).isNone) = true →
       process_data data = Except.error PDError.noValidData) ∧
    (data.any (fun i => (validateRecord i).isSome) = true →
       (process_data data).isOk = true) := by
  have hne' : ¬ data.isEmpty = true := by simpa using hne
  constructor
  · intro hall
    have hfm : data.filterMap validateRecord = [] := by
      rw [List.filterMap_eq_nil_iff]
      intro a ha
      simpa using List.all_eq_true.mp hall a ha
    have hdates : (data.foldl processItem initAccum).dates = [] := by
      rw [processLoop_dates]
      simp [initAccum, hfm]
    unfold process_data
    rw [if_neg hne']
    simp [hdates]
  · intro hany
    obtain ⟨a, ha, hsome⟩ := List.any_eq_true.mp hany
    obtain ⟨e, he⟩ := Option.isSome_iff_exists.mp hsome
    have hmem : e ∈ data.filterMap validateRecord := List.mem_filterMap.mpr ⟨a, ha, he⟩
    have hdates : ¬ (data.foldl processItem initAccum).dates.isEmpty = true := by
      rw [processLoop_dates]
      simp [initAccum]
      exact ⟨a, ha, by simp [he]⟩
    unfold process_data
    rw [if_neg hne']
    simp only [hdates, if_false]
    rfl

/-- **C2** counterexample to the claim as stated: the empty batch has
zero validating records, yet `process_data` raises the
"invalid or empty data" `ValueError`, not the `NoValidData` one. -/
theorem c2_counterexample :
    ([] : List RawRecord).all (fun i => (validateRecord i).isNone) = true ∧
    process_data [] ≠ Except.error PDError.noValidData :=
  ⟨rfl, by with_unfolding_all decide⟩

set_option maxRecDepth 8000 in
theorem c2_witness :
    (([recMissingAmount] : List RawRecord) ≠ [] ∧
     [recMissingAmount].all (fun i => (validateRecord i).isNone) = true ∧
     process_data [recMissingAmount] = Except.error PDError.noValidData) ∧
    (([recFood, recMissingAmount] : List RawRecord) ≠ [] ∧
     [recFood, recMissingAmount].any (fun i => (validateRecord i).isSome) = true ∧
     (process_data [recFood, recMissingAmount]).isOk = true) :=
  ⟨⟨by simp, by with_unfolding_all decide,
    (c2_no_valid_data_error [recMissingAmount] (by simp)).1 (by with_unfolding_all decide)⟩,
   ⟨by simp, by with_unfolding_all decide,
    (c2_no_valid_data_error [recFood, recMissingAmount] (by simp)).2
      (by with_unfolding_all decide)⟩⟩

/-- **C3**: every accepted validated expense has a non-empty category
(and by construction a rational amount), and the count of accepted
expenses plus the count of skipped records (the skip counter increments
exactly once, with one logged reason, per rejected record) equals the
size of the input batch. -/
theorem c3_validator_accounting (data : List RawRecord) :
    ((data.filterMap validateRecord).all (fun e => !(e.category == ""))) = true ∧
    (data.foldl processItem initAccum).amounts.length
        + (data.foldl processItem initAccum).skipped = data.length ∧
    (data.foldl processItem initAccum).skipped
        = data.countP (fun i => (validateRecord i).isNone) := by
  refine ⟨?_, ?_, ?_⟩
  · rw [List.all_eq_true]
    intro e he
    obtain ⟨i, hi, hv⟩ := List.mem_filterMap.mp he
    simpa using validateRecord_category_ne_empty i e hv
  · rw [processLoop_amounts, processLoop_skipped]
    simp only [initAccum, List.nil_append, List.length_map, Nat.zero_add]
    exact filterMap_length_add_countP data
  · rw [processLoop_skipped]
    simp [initAccum]

/-! ## Top-K category reduction (`plot_category_pie`, `send_category_chart`)

Both chart renderers start from
`sorted(category_totals.items(), key=lambda x: x[1], reverse=True)`.
Python's sort is stable and `reverse=True` keeps equal elements in
original order, so the result is *the* stable descending-by-value
ordering of the insertion-ordered items; `sortDescByVal` below is an
insertion sort computing exactly that ordering. -/

/-- Insert an item into a descending-by-value list, in front of the first
element whose value does not exceed it (so an element inserted earlier
stays in front of equal-valued elements inserted after it). -/
def insertDesc (x : String × ℚ) : List (String × ℚ) → List (String × ℚ)
  | [] => [x]
  | y :: ys => if y.2 ≤ x.2 then x :: y :: ys else y :: insertDesc x ys

/-- Stable descending-by-value sort, processing items in original order. -/
def sortDescByVal : List (String × ℚ) → List (String × ℚ)
  | [] => []
  | x :: xs => insertDesc x (sortDescByVal xs)

/-- The top-3 pie reduction of `plot_category_pie` (ana.py lines 124-137):
with more than 3 categories, keep the 3 largest and add an `'Other'`
bucket holding the sum of the rest; otherwise keep everything. Returns
the `(labels, sizes)` pair handed to the pie renderer. -/
def plot_category_pie_data (category_totals : List (String × ℚ)) :
    List String × List ℚ :=
  let s := sortDescByVal category_totals
  if 3 < s.length then
    ((s.take 3).map Prod.fst ++ ["Other"],
     (s.take 3).map Prod.snd ++ [((s.drop 3).map Prod.snd).sum])
  else (s.map Prod.fst, s.map Prod.snd)

/-- The top-5 reduction of `send_category_chart` (bot.py lines 199-208):
labels and sizes are the first 5 sorted items, and an `'Other'` bucket
holding the sum of the rest is appended when more than 5 exist. -/
def send_category_chart_data (category_totals : List (String × ℚ)) :
    List String × List ℚ :=
  let s := sortDescByVal category_totals
  let labels := (s.take 5).map Prod.fst
  let sizes := (s.take 5).map Prod.snd
  if 5 < s.length then
    (labels ++ ["Other"], sizes ++ [((s.drop 5).map Prod.snd).sum])
  else (labels, sizes)

theorem insertDesc_perm (x : String × ℚ) (l : List (String × ℚ)) :
    (insertDesc x l).Perm (x :: l) := by
  induction l with
  | nil => simp [insertDesc]
  | cons y ys ih =>
    by_cases h : y.2 ≤ x.2
    · simp [insertDesc, h]
    · simp only [insertDesc, if_neg h]
      exact (ih.cons y).trans (List.Perm.swap x y ys)

theorem sortDescByVal_perm (l : List (String × ℚ)) :
    (sortDescByVal l).Perm l := by
  induction l with
  | nil => simp [sortDescByVal]
  | cons x xs ih =>
    exact (insertDesc_perm x (sortDescByVal xs)).trans (ih.cons x)

theorem insertDesc_sorted (x : String × ℚ) (l : List (String × ℚ))
    (h : List.Chain' (fun a b => b.2 ≤ a.2) l) :
    List.Chain' (fun a b => b.2 ≤ a.2) (insertDesc x l) := by
  induction l with
  | nil => simp [insertDesc]
  | cons y ys ih =>
    by_cases hxy : y.2 ≤ x.2
    · simp only [insertDesc, if_pos hxy]
      exact h.cons hxy
    · simp only [insertDesc, if_neg hxy]
      have hys := h.tail
      have hins := ih hys
      cases hys2 : insertDesc x ys with
      | nil => simp
      | cons z zs =>
        rw [hys2] at hins
        refine List.Chain'.cons ?_ hins
        cases ys with
        | nil =>
          simp [insertDesc] at hys2
          rw [← hys2.1]
          exact le_of_lt (lt_of_not_le hxy)
        | cons w ws =>
          by_cases hw : w.2 ≤ x.2
          · simp only [insertDesc, if_pos hw] at hys2
            injection hys2 with h1 _
            rw [← h1]
            exact le_of_lt (lt_of_not_le hxy)
          · simp only [insertDesc, if_neg hw] at hys2
            injection hys2 with h1 _
            rw [← h1]
            exact (List.chain'_cons.mp h).1

theorem sortDescByVal_sorted (l : List (String × ℚ)) :
    List.Chain' (fun a b => b.2 ≤ a.2) (sortDescByVal l) := by
  induction l with
  | nil => simp [sortDescByVal]
  | cons x xs ih => exact insertDesc_sorted x (sortDescByVal xs) ih

/-- Inserting an element of a different value leaves the filtered
subsequence at any value untouched. -/
theorem filter_insertDesc (x : String × ℚ) (l : List (String × ℚ)) (v : ℚ) :
    (insertDesc x l).filter (fun p => p.2 = v)
      = if x.2 = v then x :: l.filter (fun p => p.2 = v)
        else l.filter (fun p => p.2 = v) := by
  induction l with
  | nil =>
    by_cases hx : x.2 = v <;> simp [insertDesc, List.filter, hx]
  | cons y ys ih =>
    by_cases hxy : y.2 ≤ x.2
    · simp only [insertDesc, if_pos hxy, List.filter_cons]
      by_cases hx : x.2 = v <;> by_cases hy : y.2 = v <;> simp [hx, hy]
    · have hlt : x.2 < y.2 := lt_of_not_le hxy
      simp only [insertDesc, if_neg hxy, List.filter_cons, ih]
      by_cases hy : y.2 = v
      · have hx : ¬ x.2 = v := by
          rw [hy] at hlt
          exact ne_of_lt hlt
        simp [hx, hy]
      · by_cases hx : x.2 = v <;> simp [hx, hy]

/-- Stability of the sort: restricted to the items of any one value, the
sorted list is exactly the original insertion-ordered subsequence —
Python's `sorted(..., key=..., reverse=True)` tie-breaking. -/
theorem sortDescByVal_stable (l : List (String × ℚ)) (v : ℚ) :
    (sortDescByVal l).filter (fun p => p.2 = v) = l.filter (fun p => p.2 = v) := by
  induction l with
  | nil => simp [sortDescByVal]
  | cons x xs ih =>
    by_cases hx : x.2 = v <;>
      simp [sortDescByVal, filter_insertDesc, List.filter_cons, hx, ih]

/-- The sort preserves the sum of the values. -/
theorem sumVals_sortDescByVal (l : List (String × ℚ)) :
    sumVals (sortDescByVal l) = sumVals l := by
  unfold sumVals
  exact ((sortDescByVal_perm l).map Prod.snd).sum_eq

/-- Splitting a totals list at position k splits its value sum. -/
theorem sumVals_take_drop (l : List (String × ℚ)) (k : ℕ) :
    sumVals l = sumVals (l.take k) + sumVals (l.drop k) := by
  unfold sumVals
  rw [← List.sum_append, ← List.map_append, List.take_append_drop]

/-! ## Claim C7 -/

/-- **C7**: for both chart reductions (K = 3 in `plot_category_pie`,
K = 5 in `send_category_chart`): the underlying order is a permutation of
the insertion-ordered totals, descending by total, with ties kept in
original (first-encountered) order (the filter equation); with more than
K categories the rendered data is the first K of that order plus one
`"Other"` bucket worth the total of all categories minus the total of the
K kept; with at most K categories everything is kept and no bucket is
added (the sizes list keeps the original length). -/
theorem c7_top_k_category_reduction (ct : List (String × ℚ)) :
    (sortDescByVal ct).Perm ct ∧
    List.Chain' (fun a b => b.2 ≤ a.2) (sortDescByVal ct) ∧
    (∀ v : ℚ, (sortDescByVal ct).filter (fun p => p.2 = v)
        = ct.filter (fun p => p.2 = v)) ∧
    (3 < ct.length →
       plot_category_pie_data ct
         = (((sortDescByVal ct).take 3).map Prod.fst ++ ["Other"],
            ((sortDescByVal ct).take 3).map Prod.snd
              ++ [sumVals ct - sumVals ((sortDescByVal ct).take 3)])) ∧
    (ct.length ≤ 3 →
       plot_category_pie_data ct
         = ((sortDescByVal ct).map Prod.fst, (sortDescByVal ct).map Prod.snd) ∧
       (plot_category_pie_data ct).2.length = ct.length) ∧
    (5 < ct.length →
       send_category_chart_data ct
         = (((sortDescByVal ct).take 5).map Prod.fst ++ ["Other"],
            ((sortDescByVal ct).take 5).map Prod.snd
              ++ [sumVals ct - sumVals ((sortDescByVal ct).take 5)])) ∧
    (ct.length ≤ 5 →
       send_category_chart_data ct
         = ((sortDescByVal ct).map Prod.fst, (sortDescByVal ct).map Prod.snd) ∧
       (send_category_chart_data ct).2.length = ct.length) := by
  have hlen : (sortDescByVal ct).length = ct.length := (sortDescByVal_perm ct).length_eq
  have hdrop : ∀ k : ℕ, sumVals ((sortDescByVal ct).drop k)
      = sumVals ct - sumVals ((sortDescByVal ct).take k) := by
    intro k
    have h1 := sumVals_take_drop (sortDescByVal ct) k
    rw [sumVals_sortDescByVal] at h1
    linarith
  refine ⟨sortDescByVal_perm ct, sortDescByVal_sorted ct, sortDescByVal_stable ct,
    ?_, ?_, ?_, ?_⟩
  · intro h
    unfold plot_category_pie_data
    rw [if_pos (by rw [hlen]; exact h)]
    rw [show (((sortDescByVal ct).drop 3).map Prod.snd).sum
          = sumVals ((sortDescByVal ct).drop 3) from rfl, hdrop 3]
  · intro h
    unfold plot_category_pie_data
    rw [if_neg (by rw [hlen]; omega)]
    exact ⟨rfl, by simp [hlen]⟩
  · intro h
    unfold send_category_chart_data
    rw [if_pos (by rw [hlen]; exact h)]
    rw [show (((sortDescByVal ct).drop 5).map Prod.snd).sum
          = sumVals ((sortDescByVal ct).drop 5) from rfl, hdrop 5]
  · intro h
    have htake : (sortDescByVal ct).take 5 = sortDescByVal ct :=
      List.take_of_length_le (by omega)
    unfold send_category_chart_data
    rw [if_neg (by rw [hlen]; omega), htake]
    exact ⟨rfl, by simp [hlen]⟩

/-- Six categories (with a tie between "b" and "e"), exercising both the
K = 3 and K = 5 over-capacity regimes. -/
def ctSix : List (String × ℚ) :=
  [("a", 10), ("b", 40), ("c", 10), ("d", 25), ("e", 40), ("f", 5)]

/-- Two tied categories, exercising the at-capacity regimes. -/
def ctTwo : List (String × ℚ) := [("g", 7), ("h", 7)]

theorem c7_witness :
    (3 < ctSix.length ∧
     plot_category_pie_data ctSix
       = (((sortDescByVal ctSix).take 3).map Prod.fst ++ ["Other"],
          ((sortDescByVal ctSix).take 3).map Prod.snd
            ++ [sumVals ctSix - sumVals ((sortDescByVal ctSix).take 3)])) ∧
    (5 < ctSix.length ∧
     send_category_chart_data ctSix
       = (((sortDescByVal ctSix).take 5).map Prod.fst ++ ["Other"],
          ((sortDescByVal ctSix).take 5).map Prod.snd
            ++ [sumVals ctSix - sumVals ((sortDescByVal ctSix).take 5)])) ∧
    (ctTwo.length ≤ 3 ∧
     (plot_category_pie_data ctTwo
        = ((sortDescByVal ctTwo).map Prod.fst, (sortDescByVal ctTwo).map Prod.snd) ∧
      (plot_category_pie_data ctTwo).2.length = ctTwo.length)) ∧
    (ctTwo.length ≤ 5 ∧
     (send_category_chart_data ctTwo
        = ((sortDescByVal ctTwo).map Prod.fst, (sortDescByVal ctTwo).map Prod.snd) ∧
      (send_category_chart_data ctTwo).2.length = ctTwo.length)) :=
  ⟨⟨by decide, (c7_top_k_category_reduction ctSix).2.2.2.1 (by decide)⟩,
   ⟨by decide, (c7_top_k_category_reduction ctSix).2.2.2.2.2.1 (by decide)⟩,
   ⟨by decide, (c7_top_k_category_reduction ctTwo).2.2.2.2.1 (by decide)⟩,
   ⟨by decide, (c7_top_k_category_reduction ctTwo).2.2.2.2.2.2 (by decide)⟩⟩

/-! ## Bot model (`bot.py`, `expense_tracker.py`)

The bot's externally visible behaviour is modelled by a state carrying
the conversation map `user_data` plus logs of the outbound effects:
`sent` (one entry per `send_message`/`send_photo` call, tagged by which
message it is), `acks` (one entry per `answer_callback_query`), and
`inserted` (one row per successful Supabase insert). The remote services
are an explicit environment: `insertOk` is whether the store insert
succeeds, `allData` is what `fetch_all_expenses` returns (`none` models
its internal error path returning Python `None`), `monthlyTotal` is the
`get_monthly_total` RPC (`none` models its error path returning `None`). -/

/-- A pending conversation mode, the `'state'` value stored in
`user_data[chat_id]`. -/
inductive ConvMode
  | waiting_for_expense
  | waiting_for_month
deriving DecidableEq, Repr

/-- Tags for the user-facing messages and photos the bot sends. Payload
fields carry the data interpolated into the message where a claim refers
to it; purely cosmetic text is not modelled. -/
inductive Msg
  | startMenu
  | backMenu
  | unauthorized
  | addExpensePrompt
  | monthPrompt
  | analyticsMenu
  | noExpenses
  | expenseListing
  | generatingCategory
  | generatingMonthly
  | noData
  | chartError
  | statsError
  | statsText
  | photoCategory (labels : List String) (sizes : List ℚ)
  | photoMonthly (monthly_totals : List ((Nat × Nat) × ℚ))
  | invalidExpenseFormat
  | invalidAmount
  | expenseAdded (category : String) (amount : ℚ) (note : String)
  | invalidMonthFormat
  | monthOutOfRange
  | invalidYearMonth
  | monthlyTotalMsg (year month : Int) (total : ℚ)
  | useStart
  | genericError
deriving DecidableEq, Repr

/-- The fixed `AUTHORIZED_CHAT_ID` of bot.py line 14. -/
def AUTHORIZED_CHAT_ID : Int := 5515574299

/-- The remote services as seen by one update's processing. -/
structure Env where
  insertOk : Bool
  allData : Option (List RawRecord)
  monthlyTotal : Int → Int → Option ℚ

/-- The bot process state: the `user_data` dict plus effect logs. -/
structure BotState where
  user_data : List (Int × ConvMode)
  sent : List (Int × Msg)
  acks : List Int
  inserted : List (String × ℚ × String)

/-- Append one outbound message (a `send_message`/`send_photo` call). -/
def sendTo (st : BotState) (chat : Int) (m : Msg) : BotState :=
  { st with sent := st.sent ++ [(chat, m)] }

/-! ### The `user_data` dict operations

`user_data` is a Python dict keyed by chat id. Assignment
(`user_data[chat_id] = {...}`) overwrites in place or appends a new key
at the end; lookup is by key; `del user_data[chat_id]` removes the entry
and raises `KeyError` (modelled as `none`) when the key is absent. -/

/-- Python dict lookup `user_data.get(chat_id)` / `user_data[chat_id]`. -/
def dictGet (d : List (Int × ConvMode)) (k : Int) : Option ConvMode :=
  match d with
  | [] => none
  | (k', v) :: rest => if k' = k then some v else dictGet rest k

/-- Python dict assignment `user_data[k] = v`. -/
def dictSet (d : List (Int × ConvMode)) (k : Int) (v : ConvMode) :
    List (Int × ConvMode) :=
  match d with
  | [] => [(k, v)]
  | (k', v') :: rest => if k' = k then (k', v) :: rest else (k', v') :: dictSet rest k v

/-- Python `del user_data[k]`: `none` is the `KeyError` raised when the
key is absent. -/
def dictDel (d : List (Int × ConvMode)) (k : Int) :
    Option (List (Int × ConvMode)) :=
  match d with
  | [] => none
  | (k', v') :: rest =>
    if k' = k then some rest
    else (dictDel rest k).map (fun r => (k', v') :: r)

/-! ### Store and handlers -/

/-- `store_expense` (expense_tracker.py lines 27-54). An empty category
or a zero (falsy) amount aborts with only a console print — no insert, no
user-visible effect, no exception. A failing remote insert is caught and
swallowed, likewise with only console prints. On success the stored row
carries the stripped category and note. The function never raises. -/
def store_expense (env : Env) (st : BotState) (category : String) (amount : ℚ)
    (note : String) : BotState :=
  if category = "" ∨ amount = 0 then st
  else if env.insertOk then
    { st with inserted :=
        st.inserted ++ [(pyStrip category, amount, if note = "" then "" else pyStrip note)] }
  else st

/-- `handle_expense_input` (bot.py lines 302-336): parse
`Category Amount [Note]` with `split(maxsplit=2)`; fewer than two tokens
or a non-numeric amount send an error reply and leave `user_data` alone
(`return` / caught `ValueError`); otherwise `store_expense` runs, the
confirmation is sent, and only then is the state entry deleted (a
`KeyError` from the delete would be caught by the generic handler, which
sends one more error reply). -/
def handle_expense_input (env : Env) (st : BotState) (chat : Int) (text : String) :
    BotState :=
  match pySplitMax2 text with
  | category :: amountTok :: rest =>
    match parseFloat amountTok with
    | none => sendTo st chat .invalidAmount
    | some amount =>
      let note := rest.headD ""
      let st1 := store_expense env st category amount note
      let st2 := sendTo st1 chat (.expenseAdded category amount note)
      match dictDel st2.user_data chat with
      | some d => { st2 with user_data := d }
      | none => sendTo st2 chat .genericError
  | _ => sendTo st chat .invalidExpenseFormat

/-- `handle_month_input` (bot.py lines 339-371): parse `YYYY MM` with
`split()`; a token count other than two, a non-integer token, or a month
outside 1..12 send an error reply and leave `user_data` alone. Otherwise
the monthly total is fetched (`fetch_monthly_total` catches its own
errors and returns `None`; the reply shows `total if total else 0`), and
`datetime(year, month, 1)` is built — it raises `ValueError` for a year
outside 1..9999, caught by the same handler that catches non-integer
tokens. On the success path the reply is sent and the state entry
deleted. -/
def handle_month_input (env : Env) (st : BotState) (chat : Int) (text : String) :
    BotState :=
  match pySplit text with
  | [yearTok, monthTok] =>
    match parseInt yearTok, parseInt monthTok with
    | some year, some month =>
      if month < 1 ∨ 12 < month then sendTo st chat .monthOutOfRange
      else
        let total := (env.monthlyTotal year month).getD 0
        if year < 1 ∨ 9999 < year then sendTo st chat .invalidYearMonth
        else
          let st2 := sendTo st chat (.monthlyTotalMsg year month total)
          match dictDel st2.user_data chat with
          | some d => { st2 with user_data := d }
          | none => sendTo st2 chat .genericError
    | _, _ => sendTo st chat .invalidYearMonth
  | _ => sendTo st chat .invalidMonthFormat

/-- `show_all_expenses` (bot.py lines 145-167): a fetch error (`None`) or
an empty list reply "No expenses found"; otherwise the listing of the
first 10 rows is sent (the listing's text content is rendering detail not
referred to by any claim). -/
def show_all_expenses (env : Env) (st : BotState) (chat : Int) : BotState :=
  match env.allData with
  | none => sendTo st chat .noExpenses
  | some [] => sendTo st chat .noExpenses
  | some _ => sendTo st chat .expenseListing

/-- `send_category_chart` (bot.py lines 186-222): progress message, then
no-data reply on an absent/empty fetch, a caught-error reply if
`process_data` raises, else the pie photo of the top-5 reduction. -/
def send_category_chart (env : Env) (st : BotState) (chat : Int) : BotState :=
  let st0 := sendTo st chat .generatingCategory
  match env.allData with
  | none => sendTo st0 chat .noData
  | some [] => sendTo st0 chat .noData
  | some l =>
    match process_data l with
    | .error _ => sendTo st0 chat .chartError
    | .ok r =>
      let ls := send_category_chart_data r.category_totals
      sendTo st0 chat (.photoCategory ls.1 ls.2)

/-- `send_monthly_chart` (bot.py lines 225-257): same shape as the
category chart, sending the monthly-trend photo (rendered from
`monthly_totals`, sorted by month key — rendering detail). -/
def send_monthly_chart (env : Env) (st : BotState) (chat : Int) : BotState :=
  let st0 := sendTo st chat .generatingMonthly
  match env.allData with
  | none => sendTo st0 chat .noData
  | some [] => sendTo st0 chat .noData
  | some l =>
    match process_data l with
    | .error _ => sendTo st0 chat .chartError
    | .ok r => sendTo st0 chat (.photoMonthly r.monthly_totals)

/-- `send_statistics` (bot.py lines 260-282): no progress message; the
statistics text is derived on demand from the aggregates (its content is
rendering detail not referred to by any claim). -/
def send_statistics (env : Env) (st : BotState) (chat : Int) : BotState :=
  match env.allData with
  | none => sendTo st chat .noData
  | some [] => sendTo st chat .noData
  | some l =>
    match process_data l with
    | .error _ => sendTo st chat .statsError
    | .ok _ => sendTo st chat .statsText

/-- `handle_start` (bot.py lines 68-82): sends the top-level menu with
its inline keyboard. Note what it does *not* do: no authorization check
and no reset of `user_data`. -/
def handle_start (st : BotState) (chat : Int) : BotState :=
  sendTo st chat .startMenu

/-- `handle_callback_query` (bot.py lines 85-142): the callback is
acknowledged unconditionally, then the authorization check refuses
everything else for a foreign chat id; otherwise the opaque `data` tag is
routed. Entering add-expense or query-month mode overwrites the
conversation state entry; an unrecognized tag does nothing. -/
def handle_callback_query (env : Env) (st : BotState) (cbId : Int) (chat : Int)
    (data : String) : BotState :=
  let st0 := { st with acks := st.acks ++ [cbId] }
  if chat ≠ AUTHORIZED_CHAT_ID then sendTo st0 chat .unauthorized
  else if data = "add_expense" then
    sendTo { st0 with user_data := dictSet st0.user_data chat .waiting_for_expense }
      chat .addExpensePrompt
  else if data = "view_expenses" then show_all_expenses env st0 chat
  else if data = "monthly_summary" then
    sendTo { st0 with user_data := dictSet st0.user_data chat .waiting_for_month }
      chat .monthPrompt
  else if data = "analytics" then sendTo st0 chat .analyticsMenu
  else if data = "ana_category" then send_category_chart env st0 chat
  else if data = "ana_monthly" then send_monthly_chart env st0 chat
  else if data = "ana_stats" then send_statistics env st0 chat
  else if data = "back_menu" then sendTo st0 chat .backMenu
  else st0

/-- `handle_text_message` (bot.py lines 285-299): refuse unauthorized
chats; route by the pending mode when one exists; otherwise prompt for
the entry command. -/
def handle_text_message (env : Env) (st : BotState) (chat : Int) (text : String) :
    BotState :=
  if chat ≠ AUTHORIZED_CHAT_ID then sendTo st chat .unauthorized
  else
    match dictGet st.user_data chat with
    | some .waiting_for_expense => handle_expense_input env st chat text
    | some .waiting_for_month => handle_month_input env st chat text
    | none => sendTo st chat .useStart

/-- One inbound Telegram update as dispatched by `main` (bot.py lines
388-411): a message (whose `text` field may be absent — then nothing at
all happens) or a callback query. -/
inductive Update
  | message (chat : Int) (text : Option String)
  | callback (cbId : Int) (chat : Int) (data : String)

/-- The per-update dispatch of `main`: the exact text `"/start"` goes to
`handle_start` (with no authorization check and no state reset), any
other text to `handle_text_message`, callbacks to
`handle_callback_query`. -/
def processUpdate (env : Env) (st : BotState) (u : Update) : BotState :=
  match u with
  | .message _ none => st
  | .message chat (some text) =>
    if text = "/start" then handle_start st chat
    else handle_text_message env st chat text
  | .callback cbId chat data => handle_callback_query env st cbId chat data

/-! ### Laws of the dict operations -/

theorem dictGet_dictSet (d : List (Int × ConvMode)) (k : Int) (v : ConvMode) :
    dictGet (dictSet d k v) k = some v := by
  induction d with
  | nil => simp [dictSet, dictGet]
  | cons p rest ih =>
    obtain ⟨k', v'⟩ := p
    by_cases h : k' = k <;> simp [dictSet, dictGet, h, ih]

theorem dictSet_dictSet (d : List (Int × ConvMode)) (k : Int) (v v' : ConvMode) :
    dictSet (dictSet d k v) k v' = dictSet d k v' := by
  induction d with
  | nil => simp [dictSet]
  | cons p rest ih =>
    obtain ⟨k'', v''⟩ := p
    by_cases h : k'' = k <;> simp [dictSet, h, ih]

theorem dictGet_eq_none_of_not_mem (d : List (Int × ConvMode)) (k : Int)
    (h : k ∉ d.map Prod.fst) : dictGet d k = none := by
  induction d with
  | nil => rfl
  | cons p rest ih =>
    obtain ⟨k', v'⟩ := p
    simp only [List.map_cons, List.mem_cons, not_or] at h
    have hk : ¬ k' = k := fun hh => h.1 hh.symm
    simp [dictGet, hk, ih h.2]

theorem dictDel_isSome_of_get (d : List (Int × ConvMode)) (k : Int)
    (h : (dictGet d k).isSome = true) : ∃ d', dictDel d k = some d' := by
  induction d with
  | nil => simp [dictGet] at h
  | cons p rest ih =>
    obtain ⟨k', v'⟩ := p
    by_cases hk : k' = k
    · exact ⟨rest, by simp [dictDel, hk]⟩
    · simp only [dictGet, if_neg hk] at h
      obtain ⟨r, hr⟩ := ih h
      exact ⟨(k', v') :: r, by simp [dictDel, hk, hr]⟩

theorem dictGet_dictDel (d : List (Int × ConvMode)) (k : Int)
    (d' : List (Int × ConvMode)) (hnd : (d.map Prod.fst).Nodup)
    (h : dictDel d k = some d') : dictGet d' k = none := by
  induction d generalizing d' with
  | nil => simp [dictDel] at h
  | cons p rest ih =>
    obtain ⟨k', v'⟩ := p
    simp only [List.map_cons, List.nodup_cons] at hnd
    by_cases hk : k' = k
    · simp only [dictDel, if_pos hk] at h
      injection h with h
      rw [← h]
      exact dictGet_eq_none_of_not_mem rest k (hk ▸ hnd.1)
    · simp only [dictDel, if_neg hk] at h
      cases hdel : dictDel rest k with
      | none => rw [hdel] at h; exact absurd h (by simp)
      | some r =>
        rw [hdel] at h
        simp only [Option.map_some'] at h
        injection h with h
        rw [← h]
        simp only [dictGet, if_neg hk]
        exact ih r hnd.2 hdel

/-! ## Claim C8 -/

/-- **C8** (amended): after `set(id, M)`, `get(id)` is `M`; a second
`set` before any clear overwrites (no stacking), so `get` then yields the
new mode; after a clear that *succeeds*, `get(id)` is none (for the
key-unique dicts the bot maintains). The claim's last law fails: `clear`
is `del user_data[chat_id]`, which raises `KeyError` on an absent
identifier rather than being a no-op (see the counterexample). -/
theorem c8_state_store_laws (d : List (Int × ConvMode)) (k : Int) (v v' : ConvMode) :
    dictGet (dictSet d k v) k = some v ∧
    dictSet (dictSet d k v) k v' = dictSet d k v' ∧
    dictGet (dictSet (dictSet d k v) k v') k = some v' ∧
    ((d.map Prod.fst).Nodup →
       ∀ d', dictDel d k = some d' → dictGet d' k = none) :=
  ⟨dictGet_dictSet d k v,
   dictSet_dictSet d k v v',
   by rw [dictSet_dictSet]; exact dictGet_dictSet d k v',
   fun hnd d' h => dictGet_dictDel d k d' hnd h⟩

/-- **C8** counterexample to the claim's no-op clear law: `del` on an
identifier with no entry raises `KeyError` (modelled `none`) — an error,
not a no-op. -/
theorem c8_counterexample : dictDel ([] : List (Int × ConvMode)) 5 = none := rfl

theorem c8_witness :
    dictGet (dictSet [] 7 ConvMode.waiting_for_month) 7
        = some ConvMode.waiting_for_month ∧
    (([(7, ConvMode.waiting_for_month)].map Prod.fst).Nodup ∧
     dictDel [(7, ConvMode.waiting_for_month)] 7 = some [] ∧
     dictGet [] 7 = none) :=
  ⟨(c8_state_store_laws [] 7 ConvMode.waiting_for_month ConvMode.waiting_for_expense).1,
   by decide,
   rfl,
   (c8_state_store_laws [(7, ConvMode.waiting_for_month)] 7 ConvMode.waiting_for_month
       ConvMode.waiting_for_expense).2.2.2 (by decide) [] rfl⟩

/-! ## Claims C4 and C5 -/

/-- A concrete environment for closed counterexamples and witnesses. -/
def env0 : Env := { insertOk := true, allData := some [], monthlyTotal := fun _ _ => none }

/-- A state in which the authorized user has a pending expense-entry mode. -/
def stPending : BotState :=
  { user_data := [(AUTHORIZED_CHAT_ID, .waiting_for_expense)],
    sent := [], acks := [], inserted := [] }

/-- The empty bot state at process start. -/
def stEmpty : BotState := { user_data := [], sent := [], acks := [], inserted := [] }

/-- **C4** (amended): dispatching the text `"/start"` presents the
top-level menu and changes nothing else — in particular it does *not*
reset the conversation state: any pending mode for the identifier
survives. (The claim as frozen asserts the state is reset; the
counterexample refutes that.) -/
theorem c4_start_presents_menu_keeps_state (env : Env) (st : BotState) (chat : Int) :
    processUpdate env st (.message chat (some "/start"))
      = { st with sent := st.sent ++ [(chat, Msg.startMenu)] } := by
  simp [processUpdate, handle_start, sendTo]

/-- **C4** counterexample to the claim as stated: with a pending
expense-entry mode for the (authorized) identifier, after `"/start"` the
state entry is still there — `get(identifier)` is the old mode, not
none. -/
theorem c4_counterexample :
    dictGet (processUpdate env0 stPending
        (.message AUTHORIZED_CHAT_ID (some "/start"))).user_data AUTHORIZED_CHAT_ID
      = some ConvMode.waiting_for_expense := by
  with_unfolding_all decide

/-- **C5** (amended): an inbound *non-`"/start"`* text message or any
callback from a chat identifier other than the authorized one gets
exactly one terse refusal message and (for callbacks) the unconditional
acknowledgment, and nothing else: the conversation state, the insert log
and everything besides that one refusal are untouched. The `"/start"`
command is excluded because `main` dispatches it with *no* authorization
check: it presents the menu to any chat (see the counterexample). -/
theorem c5_unauthorized_refused (env : Env) (st : BotState) (chat : Int)
    (text : String) (cbId : Int) (data : String)
    (hchat : chat ≠ AUTHORIZED_CHAT_ID) :
    (text ≠ "/start" →
       processUpdate env st (.message chat (some text))
         = { st with sent := st.sent ++ [(chat, Msg.unauthorized)] }) ∧
    processUpdate env st (.callback cbId chat data)
      = { st with acks := st.acks ++ [cbId],
                  sent := st.sent ++ [(chat, Msg.unauthorized)] } := by
  constructor
  · intro ht
    simp [processUpdate, ht, handle_text_message, hchat, sendTo]
  · simp [processUpdate, handle_callback_query, hchat, sendTo]

/-- **C5** counterexample to the claim as stated: the `"/start"` text
from an unauthorized chat (id 1) is *not* refused — the menu is presented
to it. -/
theorem c5_counterexample :
    (1 : Int) ≠ AUTHORIZED_CHAT_ID ∧
    (processUpdate env0 stEmpty (.message 1 (some "/start"))).sent
      = [(1, Msg.startMenu)] :=
  ⟨by decide, by with_unfolding_all decide⟩

theorem c5_witness :
    ((1 : Int) ≠ AUTHORIZED_CHAT_ID ∧ ("hello" : String) ≠ "/start" ∧
     processUpdate env0 stEmpty (.message 1 (some "hello"))
       = { stEmpty with sent := stEmpty.sent ++ [(1, Msg.unauthorized)] }) ∧
    processUpdate env0 stEmpty (.callback 9 1 "add_expense")
      = { stEmpty with acks := stEmpty.acks ++ [9],
                       sent := stEmpty.sent ++ [(1, Msg.unauthorized)] } :=
  ⟨⟨by decide, by decide,
    (c5_unauthorized_refused env0 stEmpty 1 "hello" 9 "add_expense" (by decide)).1
      (by decide)⟩,
   (c5_unauthorized_refused env0 stEmpty 1 "hello" 9 "add_expense" (by decide)).2⟩

/-! ## Claims C6 and C10 -/

/-- `store_expense` never touches the conversation state. -/
theorem store_expense_user_data (env : Env) (st : BotState) (c : String)
    (a : ℚ) (n : String) : (store_expense env st c a n).user_data = st.user_data := by
  unfold store_expense
  split
  · rfl
  · split <;> rfl

/-- `store_expense` sends no user-facing message (its prints go to the
operator console). -/
theorem store_expense_sent (env : Env) (st : BotState) (c : String)
    (a : ℚ) (n : String) : (store_expense env st c a n).sent = st.sent := by
  unfold store_expense
  split
  · rfl
  · split <;> rfl

/-- Whether an expense-entry text parses: at least two
`split(maxsplit=2)` tokens, numeric second token. -/
def expenseParseOk (text : String) : Bool :=
  match pySplitMax2 text with
  | _ :: amountTok :: _ => (parseFloat amountTok).isSome
  | _ => false

/-- Whether a month-query text fully succeeds: exactly two tokens, both
integers, month within 1..12 and year accepted by `datetime`. -/
def monthQueryOk (text : String) : Bool :=
  match pySplit text with
  | [yearTok, monthTok] =>
    match parseInt yearTok, parseInt monthTok with
    | some year, some month =>
      (1 ≤ month && month ≤ 12) && (1 ≤ year && year ≤ 9999)
    | _, _ => false
  | _ => false

/-- The month-query failure modes the claim lists: wrong token count,
non-integer token, or month outside 1..12 (the year range check by
`datetime` is a further failure mode not in this list). -/
def monthListedFailure (text : String) : Bool :=
  match pySplit text with
  | [yearTok, monthTok] =>
    match parseInt yearTok, parseInt monthTok with
    | some _, some month => month < 1 || 12 < month
    | _, _ => true
  | _ => true

/-- **C6**: for an identifier with a pending mode (so the entry exists in
the key-unique `user_data` dict), on any free-text input each mode
handler sends exactly one user-facing reply; on success the state entry
is cleared; on the listed failure modes the state is preserved unchanged
so the input can be retried. -/
theorem c6_mode_handlers_clear_or_preserve (env : Env) (st : BotState) (chat : Int)
    (text : String)
    (hnd : (st.user_data.map Prod.fst).Nodup)
    (hpending : (dictGet st.user_data chat).isSome = true) :
    ((handle_expense_input env st chat text).sent.length = st.sent.length + 1 ∧
     (expenseParseOk text = true →
        dictGet (handle_expense_input env st chat text).user_data chat = none) ∧
     (expenseParseOk text = false →
        (handle_expense_input env st chat text).user_data = st.user_data)) ∧
    ((handle_month_input env st chat text).sent.length = st.sent.length + 1 ∧
     (monthQueryOk text = true →
        dictGet (handle_month_input env st chat text).user_data chat = none) ∧
     (monthListedFailure text = true →
        (handle_month_input env st chat text).user_data = st.user_data)) := by
  obtain ⟨d', hdel⟩ := dictDel_isSome_of_get st.user_data chat hpending
  have hget : dictGet d' chat = none := dictGet_dictDel st.user_data chat d' hnd hdel
  constructor
  · -- handle_expense_input
    match hsp : pySplitMax2 text with
    | [] =>
      simp [handle_expense_input, expenseParseOk, hsp, sendTo]
    | [t1] =>
      simp [handle_expense_input, expenseParseOk, hsp, sendTo]
    | category :: amountTok :: rest =>
      cases hp : parseFloat amountTok with
      | none =>
        simp [handle_expense_input, expenseParseOk, hsp, hp, sendTo]
      | some amount =>
        have hud : (sendTo (store_expense env st category amount (rest.headD ""))
            chat (.expenseAdded category amount (rest.headD ""))).user_data
              = st.user_data := by
          simp [sendTo, store_expense_user_data]
        simp only [handle_expense_input, hsp, hp, hud, hdel]
        refine ⟨?_, ?_, ?_⟩
        · simp [sendTo, store_expense_sent]
        · intro _
          simpa using hget
        · intro hfalse
          simp [expenseParseOk, hsp, hp] at hfalse
  · -- handle_month_input
    match hsp : pySplit text with
    | [] => simp [handle_month_input, monthQueryOk, monthListedFailure, hsp, sendTo]
    | [t1] => simp [handle_month_input, monthQueryOk, monthListedFailure, hsp, sendTo]
    | t1 :: t2 :: t3 :: ts =>
      simp [handle_month_input, monthQueryOk, monthListedFailure, hsp, sendTo]
    | [yearTok, monthTok] =>
      cases hy : parseInt yearTok with
      | none =>
        simp [handle_month_input, monthQueryOk, monthListedFailure, hsp, hy, sendTo]
      | some year =>
        cases hm : parseInt monthTok with
        | none =>
          simp [handle_month_input, monthQueryOk, monthListedFailure, hsp, hy, hm, sendTo]
        | some month =>
          by_cases hrange : month < 1 ∨ 12 < month
          · have : ¬ ((1 ≤ month && month ≤ 12) && (1 ≤ year && year ≤ 9999)) = true := by
              simp only [Bool.and_eq_true, decide_eq_true_eq]
              omega
            simp [handle_month_input, monthQueryOk, monthListedFailure, hsp, hy, hm,
              if_pos hrange, sendTo, this]
          · by_cases hyr : year < 1 ∨ 9999 < year
            · have hqf : ¬ ((1 ≤ month && month ≤ 12) && (1 ≤ year && year ≤ 9999)) = true := by
                simp only [Bool.and_eq_true, decide_eq_true_eq]
                omega
              have hlf : ¬ (month < 1 || 12 < month) = true := by
                simp only [Bool.or_eq_true, decide_eq_true_eq]
                omega
              simp [handle_month_input, monthQueryOk, monthListedFailure, hsp, hy, hm,
                if_neg hrange, if_pos hyr, sendTo, hqf, hlf]
            · have hud : (sendTo st chat
                  (.monthlyTotalMsg year month ((env.monthlyTotal year month).getD 0))).user_data
                    = st.user_data := rfl
              have hlf : ¬ (month < 1 || 12 < month) = true := by
                simp only [Bool.or_eq_true, decide_eq_true_eq]
                omega
              simp only [handle_month_input, hsp, hy, hm, if_neg hrange, if_neg hyr,
                hud, hdel]
              refine ⟨by simp [sendTo], fun _ => by simpa using hget, fun hff => ?_⟩
              rw [monthListedFailure, hsp] at hff
              simp only [hy, hm] at hff
              exact absurd hff hlf

theorem c6_witness :
    ((stPending.user_data.map Prod.fst).Nodup ∧
     (dictGet stPending.user_data AUTHORIZED_CHAT_ID).isSome = true) ∧
    (expenseParseOk "Food 250 Lunch" = true ∧
     dictGet (handle_expense_input env0 stPending AUTHORIZED_CHAT_ID
         "Food 250 Lunch").user_data AUTHORIZED_CHAT_ID = none) ∧
    (monthListedFailure "2025 13" = true ∧
     (handle_month_input env0 stPending AUTHORIZED_CHAT_ID "2025 13").user_data
       = stPending.user_data) :=
  ⟨⟨by decide, by decide⟩,
   ⟨by with_unfolding_all decide,
    (c6_mode_handlers_clear_or_preserve env0 stPending AUTHORIZED_CHAT_ID
        "Food 250 Lunch" (by decide) (by decide)).1.2.1 (by with_unfolding_all decide)⟩,
   ⟨by decide,
    (c6_mode_handlers_clear_or_preserve env0 stPending AUTHORIZED_CHAT_ID
        "2025 13" (by decide) (by decide)).2.2.2 (by decide)⟩⟩

/-- A zero (Python-falsy) amount makes `store_expense` return with no
insert and no user-visible effect. -/
theorem store_expense_zero_amount (env : Env) (st : BotState) (c n : String) :
    store_expense env st c 0 n = st := by
  unfold store_expense
  rw [if_pos (Or.inr rfl)]

/-- An empty (Python-falsy) category likewise. -/
theorem store_expense_empty_category (env : Env) (st : BotState) (a : ℚ) (n : String) :
    store_expense env st "" a n = st := by
  unfold store_expense
  rw [if_pos (Or.inl rfl)]

/-- A failing remote insert is swallowed: nothing is recorded, no error
escapes. -/
theorem store_expense_insert_fails (env : Env) (st : BotState) (c : String)
    (a : ℚ) (n : String) (h : env.insertOk = false) :
    store_expense env st c a n = st := by
  unfold store_expense
  rw [h]
  split <;> simp

/-- **C10**: whenever the expense text parses (two or more tokens,
numeric amount), `handle_expense_input` sends the "Expense Added"
confirmation and clears the conversation state *regardless of whether a
row was inserted*: with amount 0 (or an empty category) `store_expense`
silently declines to insert, and with a failing remote insert it
swallows the error — the insert log is unchanged in each case, yet the
user is still told the expense was added. -/
theorem c10_confirmation_regardless_of_insert (env : Env) (st : BotState)
    (chat : Int) (text : String) (category amountTok : String)
    (rest : List String) (amt : ℚ)
    (hsp : pySplitMax2 text = category :: amountTok :: rest)
    (hp : parseFloat amountTok = some amt)
    (hnd : (st.user_data.map Prod.fst).Nodup)
    (hpending : (dictGet st.user_data chat).isSome = true) :
    (handle_expense_input env st chat text).sent
        = st.sent ++ [(chat, Msg.expenseAdded category amt (rest.headD ""))] ∧
    dictGet (handle_expense_input env st chat text).user_data chat = none ∧
    (amt = 0 → (handle_expense_input env st chat text).inserted = st.inserted) ∧
    (env.insertOk = false →
       (handle_expense_input env st chat text).inserted = st.inserted) ∧
    store_expense env st category 0 (rest.headD "") = st ∧
    store_expense env st "" amt (rest.headD "") = st := by
  obtain ⟨d', hdel⟩ := dictDel_isSome_of_get st.user_data chat hpending
  have hget : dictGet d' chat = none := dictGet_dictDel st.user_data chat d' hnd hdel
  simp only [handle_expense_input, hsp, hp]
  generalize rest.headD "" = note
  have hud : (sendTo (store_expense env st category amt note)
      chat (.expenseAdded category amt note)).user_data = st.user_data := by
    simp [sendTo, store_expense_user_data]
  simp only [hud, hdel]
  refine ⟨?_, by simpa using hget, ?_, ?_,
    store_expense_zero_amount env st category note,
    store_expense_empty_category env st amt note⟩
  · simp [sendTo, store_expense_sent]
  · intro h0
    rw [h0]
    simp [sendTo, store_expense_zero_amount]
  · intro hio
    simp [sendTo, store_expense_insert_fails env st category amt note hio]

/-- An environment in which the remote insert fails. -/
def envInsertFail : Env :=
  { insertOk := false, allData := some [], monthlyTotal := fun _ _ => none }

theorem c10_witness :
    (pySplitMax2 "Food 0 Lunch" = ["Food", "0", "Lunch"] ∧
     parseFloat "0" = some 0 ∧
     (handle_expense_input env0 stPending AUTHORIZED_CHAT_ID "Food 0 Lunch").sent
       = stPending.sent ++ [(AUTHORIZED_CHAT_ID, Msg.expenseAdded "Food" 0 "Lunch")] ∧
     dictGet (handle_expense_input env0 stPending AUTHORIZED_CHAT_ID
         "Food 0 Lunch").user_data AUTHORIZED_CHAT_ID = none ∧
     (handle_expense_input env0 stPending AUTHORIZED_CHAT_ID
         "Food 0 Lunch").inserted = stPending.inserted) ∧
    (handle_expense_input envInsertFail stPending AUTHORIZED_CHAT_ID
        "Food 250").inserted = stPending.inserted :=
  ⟨⟨by with_unfolding_all decide, by with_unfolding_all decide,
    (c10_confirmation_regardless_of_insert env0 stPending AUTHORIZED_CHAT_ID
        "Food 0 Lunch" "Food" "0" ["Lunch"] 0 (by with_unfolding_all decide)
        (by with_unfolding_all decide) (by decide) (by decide)).1,
    (c10_confirmation_regardless_of_insert env0 stPending AUTHORIZED_CHAT_ID
        "Food 0 Lunch" "Food" "0" ["Lunch"] 0 (by with_unfolding_all decide)
        (by with_unfolding_all decide) (by decide) (by decide)).2.1,
    (c10_confirmation_regardless_of_insert env0 stPending AUTHORIZED_CHAT_ID
        "Food 0 Lunch" "Food" "0" ["Lunch"] 0 (by with_unfolding_all decide)
        (by with_unfolding_all decide) (by decide) (by decide)).2.2.1 rfl⟩,
   (c10_confirmation_regardless_of_insert envInsertFail stPending AUTHORIZED_CHAT_ID
       "Food 250" "Food" "250" [] 250 (by with_unfolding_all decide)
       (by with_unfolding_all decide) (by decide) (by decide)).2.2.2.1 rfl⟩

/-! ## Claim C9 — dispatcher loop cursor discipline (`main`, bot.py 374-420)

The loop state is `last_update_id` (the cursor passed as the `offset` of
`get_updates`) plus a ghost log of the update identifiers processed, in
processing order. The loop body `for update in updates:` first sets
`last_update_id = update["update_id"] + 1` and then dispatches the
update; the dispatch never touches the cursor, so only identifiers are
tracked here. One `processBatch` is one successful iteration of the
outer `while True:` (a fetch whose `ok` is false, or a caught exception,
processes nothing and leaves the cursor as is). The transport contract of
`getUpdates` — each returned batch is in increasing identifier order and,
when an offset is given, contains only identifiers at or above it — is
the `validFetch` hypothesis. -/

structure LoopState where
  last_update_id : Option Int
  processed : List Int
deriving DecidableEq, Repr

/-- One iteration of `for update in updates:` — advance the cursor to
this identifier plus one, then (dispatch and) log the identifier. -/
def stepUpdate (s : LoopState) (uid : Int) : LoopState :=
  { last_update_id := some (uid + 1), processed := s.processed ++ [uid] }

/-- Process one fetched batch in arrival order. -/
def processBatch (s : LoopState) (batch : List Int) : LoopState :=
  batch.foldl stepUpdate s

/-- `last_update_id = None` before the first fetch. -/
def initLoop : LoopState := { last_update_id := none, processed := [] }

/-- A whole run: fold the successive successful batches. -/
def runBatches (batches : List (List Int)) : LoopState :=
  batches.foldl processBatch initLoop

/-- Strictly increasing identifier list. -/
def strictIncr : List Int → Bool
  | [] => true
  | [_] => true
  | a :: b :: rest => (a < b) && strictIncr (b :: rest)

/-- The transport contract for one fetch at a given cursor. -/
def validFetch (offset : Option Int) (batch : List Int) : Bool :=
  strictIncr batch &&
    (match offset with
     | none => true
     | some c => batch.all (fun uid => c ≤ uid))

/-- The transport contract along a run: each batch is valid for the
cursor the loop holds when it fetches it. -/
def validFrom (s : LoopState) : List (List Int) → Bool
  | [] => true
  | b :: bs => validFetch s.last_update_id b && validFrom (processBatch s b) bs

theorem strictIncr_tail (a : Int) (l : List Int)
    (h : strictIncr (a :: l) = true) : strictIncr l = true := by
  cases l with
  | nil => rfl
  | cons b rest =>
    simp only [strictIncr, Bool.and_eq_true] at h
    exact h.2

theorem strictIncr_head_lt (a : Int) (l : List Int)
    (h : strictIncr (a :: l) = true) : ∀ v ∈ l, a < v := by
  induction l generalizing a with
  | nil => simp
  | cons b rest ih =>
    simp only [strictIncr, Bool.and_eq_true, decide_eq_true_eq] at h
    intro v hv
    rcases List.mem_cons.mp hv with rfl | hv'
    · exact h.1
    · exact h.1.trans (ih b h.2 v hv')

theorem processBatch_processed (b : List Int) (s : LoopState) :
    (processBatch s b).processed = s.processed ++ b := by
  induction b generalizing s with
  | nil => simp [processBatch]
  | cons u b' ih =>
    simp [processBatch, List.foldl_cons, stepUpdate] at *
    rw [ih]
    simp [stepUpdate]

theorem foldl_processBatch_processed (bs : List (List Int)) (s : LoopState) :
    (bs.foldl processBatch s).processed = s.processed ++ bs.flatten := by
  induction bs generalizing s with
  | nil => simp
  | cons b bs' ih =>
    simp only [List.foldl_cons, List.flatten_cons, ih, processBatch_processed]
    simp

/-- The loop invariant: the processed log is strictly increasing, the
cursor is the last processed identifier plus one (or still `None` when
nothing has been processed), and the cursor strictly bounds every
processed identifier. -/
def LoopInv (s : LoopState) : Prop :=
  List.Chain' (· < ·) s.processed ∧
  s.last_update_id = s.processed.getLast?.map (· + 1) ∧
  ∀ u ∈ s.processed, ∀ c, s.last_update_id = some c → u < c

theorem initLoop_inv : LoopInv initLoop := by
  refine ⟨List.chain'_nil, rfl, ?_⟩
  intro u hu
  simp [initLoop] at hu

theorem processBatch_inv (b : List Int) (s : LoopState)
    (hv : validFetch s.last_update_id b = true) (h : LoopInv s) :
    LoopInv (processBatch s b) := by
  induction b generalizing s with
  | nil => exact h
  | cons uid b' ih =>
    obtain ⟨hchain, hcur, hbound⟩ := h
    simp only [validFetch, Bool.and_eq_true] at hv
    have hlt : ∀ u ∈ s.processed, u < uid := by
      intro u hu
      cases hc : s.last_update_id with
      | none =>
        rw [hc] at hcur
        have : s.processed.getLast? = none := by
          cases hgl : s.processed.getLast? with
          | none => rfl
          | some w => rw [hgl] at hcur; simp at hcur
        rw [List.getLast?_eq_none_iff] at this
        rw [this] at hu
        simp at hu
      | some c =>
        have h1 : u < c := hbound u hu c hc
        have h2 : c ≤ uid := by
          rw [hc] at hv
          have := hv.2
          simp only [List.all_cons, Bool.and_eq_true, decide_eq_true_eq] at this
          exact this.1
        omega
    have hstep : LoopInv (stepUpdate s uid) := by
      refine ⟨?_, ?_, ?_⟩
      · rw [stepUpdate]
        rw [List.chain'_append]
        refine ⟨hchain, List.chain'_singleton uid, ?_⟩
        intro x hx y hy
        simp only [List.head?_cons, Option.mem_def, Option.some.injEq] at hy
        rw [← hy]
        exact hlt x (List.mem_of_mem_getLast? hx)
      · simp [stepUpdate, List.getLast?_concat]
      · intro u hu c hc
        simp only [stepUpdate, Option.some.injEq] at hc
        rw [stepUpdate] at hu
        simp only [List.mem_append, List.mem_singleton] at hu
        rcases hu with hu | rfl
        · have := hlt u hu
          omega
        · omega
    have hfetch : validFetch (stepUpdate s uid).last_update_id b' = true := by
      simp only [validFetch, stepUpdate, Bool.and_eq_true]
      refine ⟨strictIncr_tail uid b' hv.1, ?_⟩
      rw [List.all_eq_true]
      intro v hv'
      have := strictIncr_head_lt uid b' hv.1 v hv'
      simp only [decide_eq_true_eq]
      omega
    exact ih (stepUpdate s uid) hfetch hstep

theorem foldl_processBatch_inv (bs : List (List Int)) (s : LoopState)
    (h : LoopInv s) (hv : validFrom s bs = true) :
    LoopInv (bs.foldl processBatch s) := by
  induction bs generalizing s with
  | nil => exact h
  | cons b bs' ih =>
    simp only [validFrom, Bool.and_eq_true] at hv
    exact ih (processBatch s b) (processBatch_inv b s hv.1 h) hv.2

theorem validFrom_append (l1 l2 : List (List Int)) (s : LoopState) :
    validFrom s (l1 ++ l2)
      = (validFrom s l1 && validFrom (l1.foldl processBatch s) l2) := by
  induction l1 generalizing s with
  | nil => simp [validFrom]
  | cons b bs ih =>
    simp only [List.cons_append, validFrom, List.foldl_cons, List.append_eq, ih,
      Bool.and_assoc]

/-- **C9**: under the transport contract (each successful fetch returns
identifiers in increasing order, all at or above the offset passed),
every run of the dispatcher loop satisfies: updates are processed in
arrival order (the log is the concatenation of the batches); the log is
strictly increasing, hence no update identifier is ever processed a
second time; before blocking for the next batch the cursor equals the
last processed identifier plus one (still `None` when nothing was
processed); and each fetched batch contains only identifiers strictly
greater than every identifier processed before it — superseded
identifiers are never re-delivered. -/
theorem c9_cursor_discipline (batches : List (List Int))
    (hv : validFrom initLoop batches = true) :
    (runBatches batches).processed = batches.flatten ∧
    List.Chain' (· < ·) (runBatches batches).processed ∧
    (runBatches batches).processed.Nodup ∧
    (runBatches batches).last_update_id
        = (runBatches batches).processed.getLast?.map (· + 1) ∧
    (∀ done b rest, batches = done ++ b :: rest →
       ((runBatches done).processed.all (fun u =>
          b.all (fun uid => decide (u < uid)))) = true) := by
  have hinv : LoopInv (runBatches batches) :=
    foldl_processBatch_inv batches initLoop initLoop_inv hv
  refine ⟨?_, hinv.1, ?_, hinv.2.1, ?_⟩
  · rw [runBatches, foldl_processBatch_processed]
    rfl
  · have hpw : (runBatches batches).processed.Pairwise (· < ·) :=
      List.chain'_iff_pairwise.mp hinv.1
    exact hpw.nodup
  · intro done b rest hsplit
    rw [hsplit, validFrom_append] at hv
    simp only [Bool.and_eq_true, validFrom] at hv
    have hfetch : validFetch ((runBatches done).last_update_id) b = true := hv.2.1
    have hinvd : LoopInv (runBatches done) :=
      foldl_processBatch_inv done initLoop initLoop_inv hv.1
    rw [List.all_eq_true]
    intro u hu
    rw [List.all_eq_true]
    intro uid huid
    simp only [decide_eq_true_eq]
    cases hc : (runBatches done).last_update_id with
    | none =>
      have h := hinvd.2.1
      rw [hc] at h
      have hgl : (runBatches done).processed.getLast? = none := by
        cases hgl' : (runBatches done).processed.getLast? with
        | none => rfl
        | some w => rw [hgl'] at h; simp at h
      rw [List.getLast?_eq_none_iff] at hgl
      rw [hgl] at hu
      simp at hu
    | some c =>
      have h1 : u < c := hinvd.2.2 u hu c hc
      have h2 : c ≤ uid := by
        simp only [validFetch, Bool.and_eq_true, hc] at hfetch
        have := List.all_eq_true.mp hfetch.2 uid huid
        simpa using this
      omega

theorem c9_witness :
    validFrom initLoop [[1, 2], [5, 7]] = true ∧
    ((runBatches [[1, 2], [5, 7]]).processed = [[1, 2], [5, 7]].flatten ∧
     List.Chain' (· < ·) (runBatches [[1, 2], [5, 7]]).processed ∧
     (runBatches [[1, 2], [5, 7]]).processed.Nodup ∧
     (runBatches [[1, 2], [5, 7]]).last_update_id
       = (runBatches [[1, 2], [5, 7]]).processed.getLast?.map (· + 1)) :=
  ⟨by decide,
   (c9_cursor_discipline [[1, 2], [5, 7]] (by decide)).1,
   (c9_cursor_discipline [[1, 2], [5, 7]] (by decide)).2.1,
   (c9_cursor_discipline [[1, 2], [5, 7]] (by decide)).2.2.1,
   (c9_cursor_discipline [[1, 2], [5, 7]] (by decide)).2.2.2.1⟩
